import Mathlib

set_option linter.unusedVariables false

/-!
Verification of the SOM (Simple Object Machine) compiler front-end.

The development shallowly embeds the two generations of code present in the
repository:

* the streaming lexer of `src/compiler/lexer.rs` (an older revision that
  returns one token per `read_token` call and signals end-of-input through
  the I/O error channel), modelled over a pure `List Char` input;
* the character buffer of `src/util/peekable_buffer.rs` with line/column
  locations;
* the recursive-descent parser of `src/compiler/parser.rs`, modelled over a
  list of `(Token, Location)` items.

The Symbol-carrying lexer that `parser.rs` pulls items from is not present
under `src/` (only its token declarations in `src/compiler/token.rs` and its
callers are); where a claim needs it, a definition modelled from the
specification is used and clearly marked.
-/

namespace Lexer

/-- Old lexer token, `enum Token` of `src/compiler/lexer.rs`.  The numeric
constructors keep the accumulated lexeme `text`; the Rust code stores
`from_str(text).unwrap()` (`Integer(int)`, `Double(f64)`).  The lexeme
determines the stored value, so the token keeps the lexeme; the `unwrap`'s
failure — the digit run exceeding the 64-bit `int` range — is modelled by
`LexOut.panicked` in `tokenize_number` (see `int_from_str`). -/
inductive Token where
  | and
  | assign
  | at
  | colon
  | comma
  | divide
  | double (text : String)
  | endBlock
  | endTerm
  | equal
  | exit
  | identifier (text : String)
  | integer (text : String)
  | keyword (text : String)
  | keywordSequence (text : String)
  | less
  | minus
  | modulus
  | more
  | newBlock
  | newTerm
  | none (c : Char)
  | not
  | operatorSequence (text : String)
  | or
  | percent
  | period
  | plus
  | pound
  | primitive
  | separator
  | star
  | string (text : String)
  deriving DecidableEq, Repr

/-- Result of one `read_token` call.  `eofError` is the propagated
end-of-input `IoResult` error; `hang` marks the single state in which the
Rust code loops forever (see `comment_body`); `panicked` models a Rust
`panic!` — the `unwrap()` of `tokenize_number`'s integer conversion. -/
inductive LexOut where
  | tok (t : Token) (rest : List Char)
  | eofError
  | hang
  | panicked
  deriving DecidableEq, Repr

/-- `is_operator` of `lexer.rs`. -/
def is_operator (c : Char) : Bool :=
  c = '~' || c = '&' || c = '|' || c = '*' || c = '/' || c = '\\' || c = '+' ||
  c = '=' || c = '>' || c = '<' || c = ',' || c = '@' || c = '%'

/-- Rust `char::is_whitespace`, i.e. the Unicode `White_Space` code points:
U+0009–U+000D, U+0020, U+0085, U+00A0, U+1680, U+2000–U+200A, U+2028,
U+2029, U+202F, U+205F and U+3000. -/
def is_whitespace_char (c : Char) : Bool :=
  (9 ≤ c.toNat && c.toNat ≤ 13) || c.toNat = 32 || c.toNat = 133 ||
  c.toNat = 160 || c.toNat = 5760 || (8192 ≤ c.toNat && c.toNat ≤ 8202) ||
  c.toNat = 8232 || c.toNat = 8233 || c.toNat = 8239 || c.toNat = 8287 ||
  c.toNat = 12288

/-- The ASCII fragment of Rust `char::is_alphabetic` (used by the
`saw_sequence` check of `tokenize_identifier`; the Rust predicate is the
Unicode `Alphabetic` property).  On ASCII characters the fragment is exact,
and its `true` case (an ASCII letter) soundly implies the Rust predicate on
every character; the theorem that relies on its `false` case
(`C7_keyword_dispatch`) restricts the character to the ASCII range, where
the model is faithful. -/
def is_alphabetic_char (c : Char) : Bool := c.isAlpha

/-- The identifier-character set of `tokenize_identifier`'s first loop:
`'a'...'z' | 'A'...'Z' | '0'...'9' | '_'`. -/
def is_identifier_char (c : Char) : Bool := c.isAlphanum || c = '_'

/-- The character set of the keyword-sequence loop in `tokenize_identifier`:
`'a'...'z' | 'A'...'Z' | ':'` (no digits, no underscore). -/
def is_sequence_char (c : Char) : Bool := c.isAlpha || c = ':'

/-- The loop of `skip_comment`: `read_char` until a `"` is read.  At
end-of-input `read_char` returns `Err`, the condition `!= Ok('"')` never
breaks the loop and the buffer state no longer changes, so the Rust loop
repeats forever; `Option.none` marks that divergence. -/
def comment_body : List Char → Option (List Char)
  | [] => Option.none
  | c :: rest => if c = '"' then some rest else comment_body rest

theorem comment_body_length {l l' : List Char} (h : comment_body l = some l') :
    l'.length < l.length := by
  induction l generalizing l' with
  | nil => simp [comment_body] at h
  | cons c rest ih =>
    rw [comment_body] at h
    split at h
    · simp only [Option.some.injEq] at h
      subst h
      simp
    · exact Nat.lt_trans (ih h) (by simp)

theorem length_dropWhile_le (p : Char → Bool) (l : List Char) :
    (l.dropWhile p).length ≤ l.length := by
  induction l with
  | nil => simp
  | cons c rest ih =>
    rw [List.dropWhile]
    split
    · exact Nat.le_trans ih (by simp)
    · simp

/-- Result of the whitespace/comment skipping loop at the top of
`read_token`: the remaining input (whose head is neither whitespace nor
`"`), the propagated end-of-input error of `peek_char`, the divergence of
`skip_comment` on an unterminated comment, or exhaustion of the fuel bound
(unreachable for fuel above the input length, see
`read_token_skip_go_no_fuelOut`). -/
inductive SkipRes where
  | ok (rest : List Char)
  | eofError
  | hang
  | fuelOut
  deriving DecidableEq, Repr

/-- Whitespace/comment skipping at the top of `read_token`:
`skip_whitespace` consumes the leading whitespace run and propagates the
end-of-input error of `peek_char`; `skip_comment` consumes one `"…"` comment;
the loop repeats while the next character is whitespace or `"`.  Each
iteration past the first consumes a comment of at least two characters, so
the fuel never runs out when it starts above the input length. -/
def read_token_skip_go : Nat → List Char → SkipRes
  | 0, _ => .fuelOut
  | fuel + 1, cs =>
    match cs.dropWhile is_whitespace_char with
    | [] => .eofError
    | '"' :: rest =>
      match comment_body rest with
      | Option.none => .hang
      | some rest2 => read_token_skip_go fuel rest2
    | c :: rest => .ok (c :: rest)

def read_token_skip (cs : List Char) : SkipRes :=
  read_token_skip_go (cs.length + 1) cs

theorem read_token_skip_go_no_fuelOut :
    ∀ (fuel : Nat) (cs : List Char), cs.length < fuel →
      read_token_skip_go fuel cs ≠ .fuelOut := by
  intro fuel
  induction fuel with
  | zero => intro cs h; omega
  | succ f ih =>
    intro cs h
    rw [read_token_skip_go]
    split
    · simp
    · split
      · simp
      · rename_i heq _ _ heq2
        apply ih
        have h1 := length_dropWhile_le is_whitespace_char cs
        rw [heq] at h1
        have h2 := comment_body_length heq2
        simp at h1
        omega
    · simp

theorem read_token_skip_no_fuelOut (cs : List Char) :
    read_token_skip cs ≠ .fuelOut :=
  read_token_skip_go_no_fuelOut (cs.length + 1) cs (by omega)

/-- `tokenize_token`: consume one character and emit the given token. -/
def tokenize_token (t : Token) : List Char → LexOut
  | [] => .eofError
  | _ :: rest => .tok t rest

/-- `tokenize_colon`. -/
def tokenize_colon : List Char → LexOut
  | [] => .eofError
  | _ :: rest =>
    if rest.head? = some '=' then tokenize_token .assign rest
    else .tok .colon rest

/-- The loop of `tokenize_minus`'s separator branch: `read_char` until a
character other than `-` is read.  The breaking character is consumed; at
end-of-input `read_char` errs and the loop breaks with nothing consumed. -/
def drop_minus_run : List Char → List Char
  | [] => []
  | c :: rest => if c = '-' then drop_minus_run rest else rest

/-- `tokenize_minus`: consume the first `-`; if the two following characters
are both `-`, consume the whole run and emit `Separator`, else emit
`Minus`. -/
def tokenize_minus : List Char → LexOut
  | [] => .eofError
  | _ :: rest =>
    match rest with
    | '-' :: '-' :: _ => .tok .separator (drop_minus_run rest)
    | _ => .tok .minus rest

/-- `tokenize_identifier`. -/
def tokenize_identifier (cs : List Char) : LexOut :=
  let text := cs.takeWhile is_identifier_char
  let rest := cs.dropWhile is_identifier_char
  match rest with
  | ':' :: rest2 =>
    if (rest2.head?.map is_alphabetic_char).getD false then
      .tok (.keywordSequence ⟨text ++ ':' :: rest2.takeWhile is_sequence_char⟩)
        (rest2.dropWhile is_sequence_char)
    else
      .tok (.keyword ⟨text ++ [':']⟩) rest2
  | _ =>
    if text = "primitive".data then .tok .primitive rest
    else .tok (.identifier ⟨text⟩) rest

/-- The digit-string value behind `int_from_str`; `Option.none` when the
string is empty or holds a non-digit. -/
def lex_digits_value (l : List Char) : Option Nat :=
  if l.isEmpty then Option.none
  else if l.all Char.isDigit then
    some (l.foldl (fun a c => a * 10 + (c.toNat - '0'.toNat)) 0)
  else Option.none

/-- Rust `from_str::<int>` as called by `tokenize_number` (`int` is the
64-bit machine integer here): an optional sign followed by at least one
digit, with the value required to fit in the signed 64-bit range;
`Option.none` is the failed parse, on which the `unwrap()` panics.  Only
the unsigned form is reachable from `tokenize_number` (its lexeme is a
digit run). -/
def int_from_str (s : String) : Option Int :=
  match s.data with
  | '+' :: ds =>
    (lex_digits_value ds).bind fun v =>
      if v ≤ 2 ^ 63 - 1 then some (v : Int) else Option.none
  | '-' :: ds =>
    (lex_digits_value ds).bind fun v =>
      if v ≤ 2 ^ 63 then some (-(v : Int)) else Option.none
  | ds =>
    (lex_digits_value ds).bind fun v =>
      if v ≤ 2 ^ 63 - 1 then some (v : Int) else Option.none

/-- `tokenize_number`.  `saw_decimal` holds when the character after the
digit run is `.` and the one after that is a digit; only then is the `.`
consumed.  Both emissions apply `from_str(text).unwrap()`: in the `Double`
branch the lexeme always has the shape `digit+ '.' digit+`, which
`from_str::<f64>` always accepts (overflow yields infinity, not a parse
error), so that `unwrap` cannot fail; in the `Integer` branches the
`unwrap` panics exactly when the digit run exceeds the 64-bit `int` range
(`int_from_str` returns `Option.none`), modelled by `panicked`. -/
def tokenize_number (cs : List Char) : LexOut :=
  let text := cs.takeWhile Char.isDigit
  match cs.dropWhile Char.isDigit with
  | '.' :: d :: rest2 =>
    if d.isDigit then
      .tok (.double ⟨text ++ '.' :: (d :: rest2).takeWhile Char.isDigit⟩)
        ((d :: rest2).dropWhile Char.isDigit)
    else
      match int_from_str ⟨text⟩ with
      | some _ => .tok (.integer ⟨text⟩) ('.' :: d :: rest2)
      | Option.none => .panicked
  | rest =>
    match int_from_str ⟨text⟩ with
    | some _ => .tok (.integer ⟨text⟩) rest
    | Option.none => .panicked

/-- The loop of `tokenize_string`: `read_char` until the closing `'`.  At
end-of-input `read_char` returns `Err`, which `try!` propagates: the partial
text is discarded and `read_token` returns the end-of-input error. -/
def string_body (acc : List Char) : List Char → LexOut
  | [] => .eofError
  | c :: rest =>
    if c = '\'' then .tok (.string ⟨acc⟩) rest
    else string_body (acc ++ [c]) rest

/-- `tokenize_string`: consume the opening `'`, then scan. -/
def tokenize_string : List Char → LexOut
  | [] => .eofError
  | _ :: rest => string_body [] rest

/-- The single-character operator table at the bottom of
`tokenize_operator`.  The final arm models the Rust `panic!`, unreachable
because the function is only entered when `is_operator` holds. -/
def operator_symbol (c : Char) : Token :=
  if c = '~' then .not
  else if c = '&' then .and
  else if c = '|' then .or
  else if c = '*' then .star
  else if c = '/' then .divide
  else if c = '\\' then .modulus
  else if c = '+' then .plus
  else if c = '=' then .equal
  else if c = '>' then .more
  else if c = '<' then .less
  else if c = ',' then .comma
  else if c = '@' then .at
  else if c = '%' then .percent
  else .none c

/-- `tokenize_operator`. -/
def tokenize_operator : List Char → LexOut
  | [] => .eofError
  | c :: rest =>
    if (rest.head?.map is_operator).getD false then
      .tok (.operatorSequence ⟨c :: rest.takeWhile is_operator⟩)
        (rest.dropWhile is_operator)
    else .tok (operator_symbol c) rest

/-- `read_token` of `src/compiler/lexer.rs`: skip whitespace and comments,
then dispatch on the first pending character exactly as the Rust `match`. -/
def read_token (cs : List Char) : LexOut :=
  match read_token_skip cs with
  | .hang => .hang
  | .fuelOut => .hang  -- unreachable, by read_token_skip_no_fuelOut
  | .eofError => .eofError
  | .ok [] => .eofError
  | .ok (c :: rest) =>
    if c = '[' then tokenize_token .newBlock (c :: rest)
    else if c = ']' then tokenize_token .endBlock (c :: rest)
    else if c = '(' then tokenize_token .newTerm (c :: rest)
    else if c = ')' then tokenize_token .endTerm (c :: rest)
    else if c = '#' then tokenize_token .pound (c :: rest)
    else if c = '^' then tokenize_token .exit (c :: rest)
    else if c = '.' then tokenize_token .period (c :: rest)
    else if c = '\'' then tokenize_string (c :: rest)
    else if c.isDigit then tokenize_number (c :: rest)
    else if c = ':' then tokenize_colon (c :: rest)
    else if c = '-' then tokenize_minus (c :: rest)
    else if c.isAlpha then tokenize_identifier (c :: rest)
    else if is_operator c then tokenize_operator (c :: rest)
    else tokenize_token (.none c) (c :: rest)

/-- How a finite tokenization run ends: clean end-of-input, the divergent
comment loop, a panic of `tokenize_number`'s integer conversion, or
exhaustion of the fuel bound (a model artifact that no theorem's conclusion
relies on). -/
inductive Ending where
  | eof
  | hang
  | panicked
  | fuelOut
  deriving DecidableEq, Repr

/-- The `tokenize` iterator of `lexer.rs`: repeated `read_token` until the
first failure.  Fuel bounds the number of calls; every emitted token consumes
at least one character, so `length + 1` calls suffice for any terminating
run. -/
def tokenize : Nat → List Char → List Token × Ending
  | 0, _ => ([], .fuelOut)
  | fuel + 1, cs =>
    match read_token cs with
    | .tok t rest =>
      let r := tokenize fuel rest
      (t :: r.1, r.2)
    | .eofError => ([], .eof)
    | .hang => ([], .hang)
    | .panicked => ([], .panicked)

/-- Tokenize a whole string. -/
def lex_string (s : String) : List Token × Ending := tokenize (s.length + 1) s.data

example : lex_string "Hello" = ([.identifier "Hello"], .eof) := by decide
example : lex_string "foo:" = ([.keyword "foo:"], .eof) := by decide
example : lex_string "foo:bar:" = ([.keywordSequence "foo:bar:"], .eof) := by decide
example : lex_string "primitive" = ([.primitive], .eof) := by decide
example : lex_string "1." = ([.integer "1", .period], .eof) := by decide
example : lex_string "3.14" = ([.double "3.14"], .eof) := by decide
example : lex_string "-" = ([.minus], .eof) := by decide
example : lex_string "----" = ([.separator], .eof) := by decide
example : lex_string "'Hello'" = ([.string "Hello"], .eof) := by decide
example : lex_string ">=" = ([.operatorSequence ">="], .eof) := by decide
example : lex_string "foo := 'Hello'" =
    ([.identifier "foo", .assign, .string "Hello"], .eof) := by decide
example : lex_string "\"comment\" Hello" = ([.identifier "Hello"], .eof) := by decide

end Lexer

namespace Util

/-- `Location(line, column)` of `src/util/peekable_buffer.rs` (a tuple
struct; `line` is field `.0`, `column` is field `.1`). -/
structure Location where
  line : Nat
  column : Nat
  deriving DecidableEq, Repr

/-- State of the `PeekableBuffer` of `src/util/peekable_buffer.rs`.
`source` is the sequence of lines that successive `read_line` calls on the
underlying `BufRead` return, each keeping its terminating newline;
`read_line` at end-of-input returns an empty line.  Upstream read errors
collapse to end-of-input (spec section 4.1) and are not modelled. -/
structure PeekableBuffer where
  source : List (List Char)
  buffer : List Char
  line : Nat
  position : Nat
  peeked : Option (Char × Location)
  deriving DecidableEq, Repr

/-- `PeekableBuffer::new`. -/
def PeekableBuffer.new (lines : List (List Char)) : PeekableBuffer :=
  { source := lines, buffer := [], line := 0, position := 0, peeked := Option.none }

/-- `fill_buffer`: when the position has reached the end of the line buffer,
bump the line counter, reset the position and read the next line. -/
def fill_buffer (b : PeekableBuffer) : PeekableBuffer :=
  if b.buffer.length ≤ b.position then
    { b with
      line := b.line + 1
      position := 0
      buffer := b.source.headD []
      source := b.source.tail }
  else b

/-- `location()`. -/
def location (b : PeekableBuffer) : Location :=
  match b.peeked with
  | some (_, loc) => loc
  | Option.none => ⟨b.line, b.position + 1⟩

/-- `next()` (the `Iterator` impl): fill the buffer, hand out a pending
peeked character if any, else read from the line buffer; the position is
advanced even when the buffer is exhausted. -/
def next (b : PeekableBuffer) : Option Char × PeekableBuffer :=
  let b := fill_buffer b
  match b.peeked with
  | some (c, _) => (some c, { b with peeked := Option.none })
  | Option.none => (b.buffer.get? b.position, { b with position := b.position + 1 })

/-- `peek()`: fill the buffer; when no character is pending, record the
current location, pull the next character and stash it together with that
location. -/
def peek (b : PeekableBuffer) : Option Char × PeekableBuffer :=
  let b1 := fill_buffer b
  match b1.peeked with
  | some (c, _) => (some c, b1)
  | Option.none =>
    let loc := location b1
    let r := next b1
    (r.1, { r.2 with peeked := r.1.map (fun c => (c, loc)) })

/-- `consume()`. -/
def consume (b : PeekableBuffer) : PeekableBuffer :=
  match b.peeked with
  | some _ => { b with peeked := Option.none }
  | Option.none => (next b).2

/-- One `read_line` unit: the characters up to and including the first
newline. -/
def split_line (acc : List Char) : List Char → List Char × List Char
  | [] => (acc, [])
  | c :: rest =>
    if c = '\n' then (acc ++ [c], rest) else split_line (acc ++ [c]) rest

/-- Split a character stream into the lines successive `read_line` calls
return.  Fuel-bounded; every line holds at least one character, so
`length + 1` lines suffice. -/
def to_lines_go : Nat → List Char → List (List Char)
  | 0, _ => []
  | _, [] => []
  | fuel + 1, cs =>
    let p := split_line [] cs
    p.1 :: to_lines_go fuel p.2

def to_lines (cs : List Char) : List (List Char) := to_lines_go (cs.length + 1) cs

/-- A buffer over the contents of a string. -/
def buffer_of_string (s : String) : PeekableBuffer := .new (to_lines s.data)

example : to_lines "a\nbc".data = ["a\n".data, "bc".data] := by decide
example :
    location (next (next (next (buffer_of_string "a\nbc")).2).2).2 = ⟨2, 2⟩ := by
  decide
example : (next (buffer_of_string "abc")).1 = some 'a' := by decide
example : (peek ((next (buffer_of_string "abc")).2)).1 = some 'b' := by decide

end Util

namespace Compiler

/-- `Symbol` of `src/compiler/token.rs`. -/
inductive Symbol where
  | and
  | assign
  | at
  | colon
  | comma
  | divide
  | double
  | endBlock
  | endTerm
  | equal
  | exit
  | identifier
  | integer
  | keyword
  | keywordSequence
  | less
  | minus
  | modulus
  | more
  | newBlock
  | newTerm
  | none
  | not
  | operatorSequence
  | or
  | percent
  | period
  | plus
  | pound
  | primitive
  | separator
  | star
  | string
  deriving DecidableEq, Repr

/-- `Token(Symbol, Option<String>)` of `src/compiler/token.rs`. -/
structure Token where
  symbol : Symbol
  text : Option String
  deriving DecidableEq, Repr

/-- `Item(Token, Location)`, the lexer item type consumed by `parser.rs`
(declared by its uses: `compiler::lexer::Item` itself is not under
`src/`). -/
structure Item where
  token : Token
  location : Util.Location
  deriving DecidableEq, Repr

/-- `Expression` of `src/compiler/ast.rs`.  `ret` models `Return`, `var`
models `Variable`, and `assignment`'s field `vars` models `variables` (the
Rust names are Lean keywords or reserved tokens).  `literalDouble`
models `LiteralDouble(f64)` as the pair of the negation flag applied by
`parse_expression_number` and the decimal lexeme the value was parsed from;
distinct lexemes denoting the same real are not identified, and no claim
compares double values. -/
inductive Expression where
  | assignment (vars : List String) (value : Expression)
  | binaryMessage (message : String) (left : Expression) (right : Expression)
  | block (parameters : List String) (locals : List String) (body : List Expression)
  | keywordMessage (message : String) (receiver : Expression) (parameters : List Expression)
  | literalBoolean (value : Bool)
  | literalDouble (negative : Bool) (text : String)
  | literalInteger (value : Int)
  | literalNil
  | literalString (value : String)
  | literalSymbol (value : String)
  | ret (value : Expression)
  | unaryMessage (message : String) (receiver : Expression)
  | var (name : String)

/-- `Method` of `src/compiler/ast.rs`. -/
inductive Method where
  | primitive (name : String) (parameters : List String)
  | native (name : String) (parameters : List String) (locals : List String)
      (body : List Expression)

/-- `Class` of `src/compiler/ast.rs`.  The Rust method maps are `HashMap`s
(unordered); they are modelled as association lists whose entries appear in
insertion order, with `HashMap::insert`'s replace-on-collision semantics
(`insert_method`).  No claim observes an ordering. -/
structure Class where
  name : String
  superclass : String
  instance_methods : List (String × Method)
  instance_variables : List String
  class_methods : List (String × Method)
  class_variables : List String

/-- `HashMap::insert`: replace the entry with an equal key, else add. -/
def insert_method (methods : List (String × Method)) (name : String)
    (m : Method) : List (String × Method) :=
  if (methods.map Prod.fst).contains name then
    methods.map (fun kv => if kv.1 = name then (name, m) else kv)
  else methods ++ [(name, m)]

/-- `Error` of `src/compiler/parser.rs`.  `endOfInput` models `Error::End`
(`end` is a Lean keyword). -/
inductive Error where
  | parseError (description : String) (filename : String) (line : Nat)
      (position : Nat)
  | mismatchError (expected : List Symbol) (found : Symbol)
      (location : Util.Location)
  | endOfInput
  deriving DecidableEq, Repr

/-- `BINARY_OPERATORS` of `parser.rs`. -/
def BINARY_OPERATORS : List Symbol :=
  [.and, .at, .comma, .divide, .equal, .less, .minus, .modulus, .more, .not,
   .or, .percent, .plus, .star]

/-- `is_binary_operator`. -/
def is_binary_operator (s : Symbol) : Bool := BINARY_OPERATORS.contains s

/-- `binary_symbol_to_string`.  The final arm models the Rust
`unreachable!`; the function is only applied to members of
`BINARY_OPERATORS`. -/
def binary_symbol_to_string (s : Symbol) : String :=
  match s with
  | .and => "&"
  | .at => "@"
  | .comma => ","
  | .divide => "/"
  | .equal => "="
  | .less => "<"
  | .minus => "-"
  | .modulus => "\\"
  | .more => ">"
  | .not => "~"
  | .or => "|"
  | .percent => "%"
  | .plus => "+"
  | .star => "*"
  | _ => ""

/-- The `Debug` name of a `Symbol` variant, as `format!("{:?}", …)` prints
it (used in `expect_one_of`'s `ParseError` description). -/
def symbol_name (s : Symbol) : String :=
  match s with
  | .and => "And"
  | .assign => "Assign"
  | .at => "At"
  | .colon => "Colon"
  | .comma => "Comma"
  | .divide => "Divide"
  | .double => "Double"
  | .endBlock => "EndBlock"
  | .endTerm => "EndTerm"
  | .equal => "Equal"
  | .exit => "Exit"
  | .identifier => "Identifier"
  | .integer => "Integer"
  | .keyword => "Keyword"
  | .keywordSequence => "KeywordSequence"
  | .less => "Less"
  | .minus => "Minus"
  | .modulus => "Modulus"
  | .more => "More"
  | .newBlock => "NewBlock"
  | .newTerm => "NewTerm"
  | .none => "None"
  | .not => "Not"
  | .operatorSequence => "OperatorSequence"
  | .or => "Or"
  | .percent => "Percent"
  | .period => "Period"
  | .plus => "Plus"
  | .pound => "Pound"
  | .primitive => "Primitive"
  | .separator => "Separator"
  | .star => "Star"
  | .string => "String"

/-- The description `format!("Expected {:?}, found {:?}", expected, found)`
of `expect_one_of`, with `Vec`'s `Debug` list form. -/
def expected_description (expected : List Symbol) (found : Symbol) : String :=
  "Expected [" ++ String.intercalate ", " (expected.map symbol_name) ++
    "], found " ++ symbol_name found

/-- State of the `Parser` of `src/compiler/parser.rs`: the remaining items
of the peekable lexer, the k-lookahead queue, and the filename label. -/
structure Parser where
  lexer : List Item
  queue : List Item
  filename : String
  deriving DecidableEq, Repr

/-- `Parser::new` over a given item stream. -/
def parser_new (items : List Item) (filename : String) : Parser :=
  ⟨items, [], filename⟩

/-- The `for _ in (self.queue.len()..n)` loop of `peek(n)`: move items from
the lexer into the queue one at a time; report whether the lexer ran dry
(the loop's early `return Err(Error::End)`), keeping the items moved so
far. -/
def pull_items : Nat → Parser → Bool × Parser
  | 0, p => (true, p)
  | k + 1, p =>
    match p.lexer with
    | [] => (false, p)
    | it :: rest => pull_items k { p with queue := p.queue ++ [it], lexer := rest }

/-- `peek(n)`: fill the queue up to `n` items (`Error::End` if the lexer
runs dry first), then hand out a copy of the n-th queued token. -/
def peekN (p : Parser) (n : Nat) : Except Error Token × Parser :=
  match pull_items (n - p.queue.length) p with
  | (false, p2) => (.error .endOfInput, p2)
  | (true, p2) =>
    match p2.queue.get? (n - 1) with
    | some it => (.ok it.token, p2)
    | Option.none => (.error .endOfInput, p2)

/-- `consume(n)`: drop `n` items one at a time, from the queue first, then
from the lexer.  Always returns `Ok(())` in the Rust code. -/
def consumeN : Parser → Nat → Parser
  | p, 0 => p
  | p, n + 1 =>
    match p.queue with
    | _ :: qrest => consumeN { p with queue := qrest } n
    | [] =>
      match p.lexer with
      | [] => consumeN p n
      | _ :: rest => consumeN { p with lexer := rest } n

/-- `accept_one_of`: look at the front item (queue first, else the peekable
lexer); pop it and return its token when the symbol is expected, else leave
the state unchanged and report a `MismatchError` (or `Error::End` when
exhausted). -/
def accept_one_of (p : Parser) (expected : List Symbol) :
    Except Error Token × Parser :=
  match p.queue with
  | it :: rest =>
    if expected.contains it.token.symbol then (.ok it.token, { p with queue := rest })
    else (.error (.mismatchError expected it.token.symbol it.location), p)
  | [] =>
    match p.lexer with
    | it :: rest =>
      if expected.contains it.token.symbol then (.ok it.token, { p with lexer := rest })
      else (.error (.mismatchError expected it.token.symbol it.location), p)
    | [] => (.error .endOfInput, p)

/-- `accept`. -/
def accept (p : Parser) (s : Symbol) : Except Error Token × Parser :=
  accept_one_of p [s]

/-- `expect_one_of`: `accept_one_of` with `MismatchError` promoted to a
fatal `ParseError`. -/
def expect_one_of (p : Parser) (expected : List Symbol) :
    Except Error (Option String) × Parser :=
  match accept_one_of p expected with
  | (.ok t, p2) => (.ok t.text, p2)
  | (.error (.mismatchError exp found loc), p2) =>
    (.error (.parseError (expected_description exp found) p2.filename loc.line
        loc.column), p2)
  | (.error e, p2) => (.error e, p2)

/-- `expect`. -/
def expect (p : Parser) (s : Symbol) : Except Error (Option String) × Parser :=
  expect_one_of p [s]

/-- The Rust `==` between a `Result<Token, Error>` and `Ok(tok)` (used by
the `peek(2) == Ok(Token(Symbol::Assign, None))` tests). -/
def is_ok_token (r : Except Error Token) (t : Token) : Bool :=
  match r with
  | .ok t2 => t2 = t
  | .error _ => false

end Compiler

namespace Compiler

/-- Result of a parser routine.  `panicked` models a Rust `panic!` (every
`unwrap` on a missing value and every `unreachable!`); `fuelOut` is a model
artifact marking exhaustion of the recursion fuel, relied on by no
theorem. -/
inductive PRes (α : Type) where
  | ok (value : α) (p : Parser)
  | err (e : Error) (p : Parser)
  | panicked (msg : String)
  | fuelOut

/-- The parser's state monad over `PRes`, so that the Rust methods read off
one to one: `try!`-style error propagation is the monadic bind on routines
that return `PRes`. -/
def PM (α : Type) : Type := Parser → PRes α

instance instMonadPM : Monad PM where
  pure a := fun p => .ok a p
  bind m f := fun p =>
    match m p with
    | .ok a p2 => f a p2
    | .err e p2 => .err e p2
    | .panicked msg => .panicked msg
    | .fuelOut => .fuelOut

/-- Run a primitive state operation that cannot fail monadically. -/
def liftOp {α : Type} (f : Parser → α × Parser) : PM α :=
  fun p => let r := f p; .ok r.1 r.2

/-- Run a primitive operation, keeping its `Result` as a value (the Rust
call sites that `match` on the result). -/
def attempt {α : Type} (f : Parser → Except Error α × Parser) :
    PM (Except Error α) :=
  liftOp f

/-- Run a primitive operation, propagating its error (the Rust `try!`
call sites). -/
def require {α : Type} (f : Parser → Except Error α × Parser) : PM α :=
  fun p =>
    match f p with
    | (.ok a, p2) => .ok a p2
    | (.error e, p2) => .err e p2

/-- Propagate an error (`return Err(e)`). -/
def throwE {α : Type} (e : Error) : PM α := fun p => .err e p

/-- A Rust `panic!` / `unreachable!`. -/
def panicM {α : Type} (msg : String) : PM α := fun _ => .panicked msg

/-- `Option::unwrap` on the text payload of a token. -/
def unwrapText : Option String → PM String
  | some s => pure s
  | Option.none => panicM "called Option::unwrap() on a None value"

/-- `try!(self.peek(n))`. -/
def peekTry (n : Nat) : PM Token := require (fun p => peekN p n)

/-- `self.peek(n)` used as a value. -/
def peekRes (n : Nat) : PM (Except Error Token) := attempt (fun p => peekN p n)

/-- `self.accept(s)` used as a value. -/
def acceptRes (s : Symbol) : PM (Except Error Token) :=
  attempt (fun p => accept p s)

/-- `self.accept_one_of(ss)` used as a value. -/
def acceptOneOfRes (ss : List Symbol) : PM (Except Error Token) :=
  attempt (fun p => accept_one_of p ss)

/-- `try!(self.expect(s))`. -/
def expectTry (s : Symbol) : PM (Option String) :=
  require (fun p => expect p s)

/-- `try!(self.consume(n))` (always `Ok` in the Rust code). -/
def consumeM (n : Nat) : PM Unit := fun p => .ok () (consumeN p n)

/-- The Rust digit-string value of a decimal literal; `Option.none` when the
string is empty or holds a non-digit. -/
def digits_value (l : List Char) : Option Nat :=
  if l.isEmpty then Option.none
  else if l.all Char.isDigit then
    some (l.foldl (fun a c => a * 10 + (c.toNat - '0'.toNat)) 0)
  else Option.none

/-- Rust `<i64 as FromStr>::from_str`: an optional sign followed by at least
one ASCII digit, with the value required to fit in `i64`
(`-2^63 ≤ v ≤ 2^63 - 1`); `Option.none` is the `Err` case, on which
`parse_expression_number`'s `unwrap()` panics. -/
def parse_i64 (s : String) : Option Int :=
  match s.data with
  | '+' :: ds =>
    (digits_value ds).bind fun v =>
      if v ≤ 2 ^ 63 - 1 then some (v : Int) else Option.none
  | '-' :: ds =>
    (digits_value ds).bind fun v =>
      if v ≤ 2 ^ 63 then some (-(v : Int)) else Option.none
  | ds =>
    (digits_value ds).bind fun v =>
      if v ≤ 2 ^ 63 - 1 then some (v : Int) else Option.none

/-- Mantissa of Rust's `f64` literal grammar: digit/`.` characters with at
least one digit and at most one `.`. -/
def mantissa_ok (l : List Char) : Bool :=
  l.all (fun c => c.isDigit || c = '.') && l.any Char.isDigit &&
    (l.filter (fun c => c = '.')).length ≤ 1

/-- Exponent of Rust's `f64` literal grammar: an optional sign followed by
at least one digit. -/
def exponent_ok (l : List Char) : Bool :=
  let ds := match l with
    | '+' :: r => r
    | '-' :: r => r
    | r => r
  !ds.isEmpty && ds.all Char.isDigit

/-- Whether Rust `<f64 as FromStr>::from_str` accepts the string (it never
errs on overflow, only on shape): an optional sign, then either a decimal
number with optional `e`/`E` exponent or one of `inf`, `infinity`, `nan`
case-insensitively.  `parse_expression_number`'s `unwrap()` panics exactly
when this is false. -/
def f64_parse_ok (s : String) : Bool :=
  let body := match s.data with
    | '+' :: r => r
    | '-' :: r => r
    | r => r
  let low := body.map Char.toLower
  (match body.findIdx? (fun c => c = 'e' || c = 'E') with
   | some i => mantissa_ok (body.take i) && exponent_ok (body.drop (i + 1))
   | Option.none => mantissa_ok body) ||
    low = "inf".data || low = "infinity".data || low = "nan".data

/-- `parse_superclass_name`: the single place a `MismatchError` is caught
and defaulted (to `"Object"`, without consuming the mismatching token). -/
def parse_superclass_name : PM String := do
  let r ← acceptRes .identifier
  match r with
  | .ok t =>
    match t.symbol, t.text with
    | .identifier, some text => pure text
    | .identifier, Option.none => panicM "called Option::unwrap() on a None value"
    | _, _ => panicM "internal error: entered unreachable code"
  | .error (.mismatchError _ _ _) => pure "Object"
  | .error e => throwE e

/-- `parse_unary_pattern`. -/
def parse_unary_pattern : PM (String × List String) := do
  let n ← expectTry .identifier
  let name ← unwrapText n
  pure (name, [])

/-- `parse_binary_pattern`. -/
def parse_binary_pattern : PM (String × List String) := do
  let r ← peekRes 1
  let name ← (match r with
    | .ok t =>
      if t.symbol = .operatorSequence then unwrapText t.text
      else if is_binary_operator t.symbol then
        pure (binary_symbol_to_string t.symbol)
      else panicM "internal error: entered unreachable code"
    | .error _ => panicM "internal error: entered unreachable code")
  consumeM 1
  let pr ← expectTry .identifier
  let param ← unwrapText pr
  pure (name, [param])

/-- `parse_expression_variable`: `nil`, `true` and `false` become literals,
anything else a `Variable`. -/
def parse_expression_variable : PM Expression := do
  let t ← expectTry .identifier
  let v ← unwrapText t
  pure (if v = "nil" then .literalNil
    else if v = "true" then .literalBoolean true
    else if v = "false" then .literalBoolean false
    else .var v)

/-- `parse_expression_string`. -/
def parse_expression_string : PM Expression := do
  let t ← expectTry .string
  let v ← unwrapText t
  pure (.literalString v)

/-- `parse_expression_symbol`. -/
def parse_expression_symbol : PM Expression := do
  let _ ← expectTry .pound
  let r ← peekRes 1
  let value ← (match r with
    | .ok t =>
      if t.symbol = .identifier then unwrapText t.text
      else if t.symbol = .string then unwrapText t.text
      else if t.symbol = .keyword then unwrapText t.text
      else if t.symbol = .keywordSequence then unwrapText t.text
      else if t.symbol = .operatorSequence then unwrapText t.text
      else if is_binary_operator t.symbol then
        pure (binary_symbol_to_string t.symbol)
      else panicM "internal error: entered unreachable code"
    | .error _ => panicM "internal error: entered unreachable code")
  consumeM 1
  pure (.literalSymbol value)

/-- `parse_expression_number`: parse the lexeme of an `Integer`/`Double`
token with the host's decimal parsing, `unwrap`ping the result (a panic on
failure), and negate when reached through `parse_expression_negative_number`. -/
def parse_expression_number (negative : Bool) : PM Expression := do
  let r ← acceptOneOfRes [.integer, .double]
  match r with
  | .ok t =>
    match t.symbol, t.text with
    | .integer, some text =>
      match parse_i64 text with
      | some v => pure (.literalInteger (if negative then -v else v))
      | Option.none => panicM "called Result::unwrap() on an Err value"
    | .double, some text =>
      if f64_parse_ok text then pure (.literalDouble negative text)
      else panicM "called Result::unwrap() on an Err value"
    | _, _ => panicM "internal error: entered unreachable code"
  | .error e => throwE e

/-- `parse_expression_negative_number`. -/
def parse_expression_negative_number : PM Expression := do
  let _ ← expectTry .minus
  parse_expression_number true

/-- `parse_expression_unary_message`. -/
def parse_expression_unary_message (value : Expression) : PM Expression := do
  let t ← expectTry .identifier
  let m ← unwrapText t
  pure (.unaryMessage m value)

end Compiler

namespace Compiler

mutual

/-- `parse_class`. -/
def parse_class : Nat → PM Class
  | 0 => fun _ => .fuelOut
  | fuel + 1 => do
    let n ← expectTry .identifier
    let name ← unwrapText n
    let _ ← expectTry .equal
    let superclass ← parse_superclass_name
    let _ ← expectTry .newTerm
    let instance_variables ← parse_locals fuel
    let instance_methods ← parse_methods_loop fuel []
    let sep ← acceptRes .separator
    let cvm ← (match sep with
      | .ok _ => do
        let cvs ← parse_locals fuel
        let cms ← parse_methods_loop fuel []
        pure (cvs, cms)
      | .error _ => pure ([], []))
    let _ ← expectTry .endTerm
    pure { name := name, superclass := superclass,
           instance_methods := instance_methods,
           instance_variables := instance_variables,
           class_methods := cvm.2, class_variables := cvm.1 }

/-- The method loops of `parse_class`: while the next token can start a
method pattern, parse one and `insert` it. -/
def parse_methods_loop : Nat → List (String × Method) →
    PM (List (String × Method))
  | 0, _ => fun _ => .fuelOut
  | fuel + 1, acc => do
    let t ← peekTry 1
    if t.symbol = .identifier ∨ t.symbol = .keyword ∨
        t.symbol = .operatorSequence ∨ is_binary_operator t.symbol then do
      let nm ← parse_method fuel
      parse_methods_loop fuel (insert_method acc nm.1 nm.2)
    else pure acc

/-- `parse_method`. -/
def parse_method : Nat → PM (String × Method)
  | 0 => fun _ => .fuelOut
  | fuel + 1 => do
    let pr ← parse_pattern fuel
    let _ ← expectTry .equal
    let prim ← acceptRes .primitive
    match prim with
    | .ok _ => pure (pr.1, .primitive pr.1 pr.2)
    | .error _ => do
      let _ ← expectTry .newTerm
      let locals ← parse_locals fuel
      let body ← parse_block_body fuel
      let _ ← expectTry .endTerm
      pure (pr.1, .native pr.1 pr.2 locals body)

/-- `parse_pattern`. -/
def parse_pattern : Nat → PM (String × List String)
  | 0 => fun _ => .fuelOut
  | fuel + 1 => do
    let r ← peekRes 1
    match r with
    | .ok t =>
      if t.symbol = .identifier then parse_unary_pattern
      else if t.symbol = .keyword then parse_keyword_pattern fuel
      else if t.symbol = .operatorSequence then parse_binary_pattern
      else if is_binary_operator t.symbol then parse_binary_pattern
      else panicM "internal error: entered unreachable code"
    | .error _ => panicM "internal error: entered unreachable code"

/-- `parse_keyword_pattern`. -/
def parse_keyword_pattern : Nat → PM (String × List String)
  | 0 => fun _ => .fuelOut
  | fuel + 1 => do
    let n ← expectTry .keyword
    let name ← unwrapText n
    let p1 ← expectTry .identifier
    let param1 ← unwrapText p1
    parse_keyword_pattern_loop fuel name [param1]

/-- The keyword-fragment loop of `parse_keyword_pattern`. -/
def parse_keyword_pattern_loop : Nat → String → List String →
    PM (String × List String)
  | 0, _, _ => fun _ => .fuelOut
  | fuel + 1, name, params => do
    let r ← acceptRes .keyword
    match r with
    | .ok t =>
      match t.symbol, t.text with
      | .keyword, some text => do
        let pv ← expectTry .identifier
        let param ← unwrapText pv
        parse_keyword_pattern_loop fuel (name ++ text) (params ++ [param])
      | .keyword, Option.none => panicM "called Option::unwrap() on a None value"
      | _, _ => panicM "internal error: entered unreachable code"
    | .error (.mismatchError _ _ _) => pure (name, params)
    | .error e => throwE e

/-- `parse_locals`. -/
def parse_locals : Nat → PM (List String)
  | 0 => fun _ => .fuelOut
  | fuel + 1 => do
    let r ← acceptRes .or
    match r with
    | .ok _ => do
      let ls ← parse_locals_loop fuel []
      let _ ← expectTry .or
      pure ls
    | .error _ => pure []

/-- The identifier loop of `parse_locals` (any `accept` failure breaks). -/
def parse_locals_loop : Nat → List String → PM (List String)
  | 0, _ => fun _ => .fuelOut
  | fuel + 1, acc => do
    let r ← acceptRes .identifier
    match r with
    | .ok t => do
      let v ← unwrapText t.text
      parse_locals_loop fuel (acc ++ [v])
    | .error _ => pure acc

/-- `parse_block_parameters`. -/
def parse_block_parameters : Nat → List String → PM (List String)
  | 0, _ => fun _ => .fuelOut
  | fuel + 1, params => do
    let r ← peekRes 1
    if is_ok_token r ⟨.colon, Option.none⟩ then do
      let _ ← expectTry .colon
      let pv ← expectTry .identifier
      let param ← unwrapText pv
      parse_block_parameters fuel (params ++ [param])
    else
      if params.isEmpty then pure params
      else do
        let _ ← expectTry .or
        pure params

/-- `parse_block_body`. -/
def parse_block_body : Nat → PM (List Expression)
  | 0 => fun _ => .fuelOut
  | fuel + 1 => parse_block_body_loop fuel []

/-- The statement loop of `parse_block_body`: stop before `)`/`]` or at
end-of-input; after each statement continue only past a `.`. -/
def parse_block_body_loop : Nat → List Expression → PM (List Expression)
  | 0, _ => fun _ => .fuelOut
  | fuel + 1, acc => do
    let r ← peekRes 1
    match r with
    | .ok t =>
      if t.symbol = .endTerm then pure acc
      else if t.symbol = .endBlock then pure acc
      else do
        let e ← (if t.symbol = .exit then parse_result fuel
          else parse_expression fuel)
        let pr ← acceptRes .period
        match pr with
        | .ok _ => parse_block_body_loop fuel (acc ++ [e])
        | .error _ => pure (acc ++ [e])
    | .error .endOfInput => pure acc
    | .error _ => panicM "internal error: entered unreachable code"

/-- `parse_result`. -/
def parse_result : Nat → PM Expression
  | 0 => fun _ => .fuelOut
  | fuel + 1 => do
    let _ ← expectTry .exit
    let e ← parse_expression fuel
    pure (.ret e)

/-- `parse_assignments`: collect `Identifier :=` prefixes while the second
upcoming token is `Assign`. -/
def parse_assignments : Nat → List String → PM (List String)
  | 0, _ => fun _ => .fuelOut
  | fuel + 1, acc => do
    let r ← peekRes 2
    if is_ok_token r ⟨.assign, Option.none⟩ then do
      let t ← expectTry .identifier
      let v ← unwrapText t
      let _ ← expectTry .assign
      parse_assignments fuel (acc ++ [v])
    else pure acc

/-- `parse_expression`. -/
def parse_expression : Nat → PM Expression
  | 0 => fun _ => .fuelOut
  | fuel + 1 => do
    let r ← peekRes 2
    if is_ok_token r ⟨.assign, Option.none⟩ then do
      let vs ← parse_assignments fuel []
      let v ← parse_expression fuel
      pure (.assignment vs v)
    else do
      let e ← parse_expression_primary fuel
      parse_expression_loop fuel e

/-- The message loop of `parse_expression`. -/
def parse_expression_loop : Nat → Expression → PM Expression
  | 0, _ => fun _ => .fuelOut
  | fuel + 1, e => do
    let r ← peekRes 1
    match r with
    | .ok t =>
      if t.symbol = .identifier ∨ t.symbol = .keyword ∨
          t.symbol = .operatorSequence ∨ is_binary_operator t.symbol then do
        let e2 ← parse_expression_messages fuel e
        parse_expression_loop fuel e2
      else pure e
    | .error _ => pure e

/-- `parse_expression_primary`. -/
def parse_expression_primary : Nat → PM Expression
  | 0 => fun _ => .fuelOut
  | fuel + 1 => do
    let r ← peekRes 1
    match r with
    | .ok t =>
      if t.symbol = .identifier then parse_expression_variable
      else if t.symbol = .string then parse_expression_string
      else if t.symbol = .integer then parse_expression_number false
      else if t.symbol = .double then parse_expression_number false
      else if t.symbol = .pound then parse_expression_symbol
      else if t.symbol = .minus then parse_expression_negative_number
      else if t.symbol = .newBlock then parse_expression_nested_block fuel
      else if t.symbol = .newTerm then parse_expression_nested_term fuel
      else panicM "internal error: entered unreachable code"
    | .error e => throwE e

/-- `parse_expression_messages`. -/
def parse_expression_messages : Nat → Expression → PM Expression
  | 0, _ => fun _ => .fuelOut
  | fuel + 1, value => do
    let t ← peekTry 1
    if t.symbol = .identifier then parse_unary_messages_loop fuel value
    else if t.symbol = .keyword then
      parse_expression_keyword_message fuel value
    else if t.symbol = .operatorSequence then
      parse_expression_binary_message fuel value
    else if is_binary_operator t.symbol then
      parse_expression_binary_message fuel value
    else panicM "internal error: entered unreachable code"

/-- The unary-message loops (written twice in the Rust code: inside
`parse_expression_messages` and inside `parse_expression_binary_operand`,
with identical bodies). -/
def parse_unary_messages_loop : Nat → Expression → PM Expression
  | 0, _ => fun _ => .fuelOut
  | fuel + 1, value => do
    let r ← peekRes 1
    match r with
    | .ok t =>
      if t.symbol = .identifier then do
        let v2 ← parse_expression_unary_message value
        parse_unary_messages_loop fuel v2
      else pure value
    | .error _ => pure value

/-- `parse_expression_nested_block`. -/
def parse_expression_nested_block : Nat → PM Expression
  | 0 => fun _ => .fuelOut
  | fuel + 1 => do
    let _ ← expectTry .newBlock
    let params ← parse_block_parameters fuel []
    let locals ← parse_locals fuel
    let body ← parse_block_body fuel
    let _ ← expectTry .endBlock
    pure (.block params locals body)

/-- `parse_expression_nested_term`. -/
def parse_expression_nested_term : Nat → PM Expression
  | 0 => fun _ => .fuelOut
  | fuel + 1 => do
    let _ ← expectTry .newTerm
    let e ← parse_expression fuel
    let _ ← expectTry .endTerm
    pure e

/-- `parse_expression_keyword_message`. -/
def parse_expression_keyword_message : Nat → Expression → PM Expression
  | 0, _ => fun _ => .fuelOut
  | fuel + 1, value => do
    let mp ← parse_keyword_message_loop fuel "" []
    pure (.keywordMessage mp.1 value mp.2)

/-- The keyword-fragment loop of `parse_expression_keyword_message` (any
`accept` failure breaks). -/
def parse_keyword_message_loop : Nat → String → List Expression →
    PM (String × List Expression)
  | 0, _, _ => fun _ => .fuelOut
  | fuel + 1, message, params => do
    let r ← acceptRes .keyword
    match r with
    | .ok t =>
      match t.symbol, t.text with
      | .keyword, some text => do
        let param ← parse_expression_formula fuel
        parse_keyword_message_loop fuel (message ++ text) (params ++ [param])
      | .keyword, Option.none => panicM "called Option::unwrap() on a None value"
      | _, _ => panicM "internal error: entered unreachable code"
    | .error _ => pure (message, params)

/-- `parse_expression_formula`. -/
def parse_expression_formula : Nat → PM Expression
  | 0 => fun _ => .fuelOut
  | fuel + 1 => do
    let v ← parse_expression_binary_operand fuel
    parse_formula_loop fuel v

/-- The binary-message loop of `parse_expression_formula`. -/
def parse_formula_loop : Nat → Expression → PM Expression
  | 0, _ => fun _ => .fuelOut
  | fuel + 1, v => do
    let r ← peekRes 1
    match r with
    | .ok t =>
      if is_binary_operator t.symbol ∨ t.symbol = .operatorSequence then do
        let v2 ← parse_expression_binary_message fuel v
        parse_formula_loop fuel v2
      else pure v
    | .error _ => pure v

/-- `parse_expression_binary_operand`: a primary followed by its unary
messages. -/
def parse_expression_binary_operand : Nat → PM Expression
  | 0 => fun _ => .fuelOut
  | fuel + 1 => do
    let v ← parse_expression_primary fuel
    parse_unary_messages_loop fuel v

/-- `parse_expression_binary_message`. -/
def parse_expression_binary_message : Nat → Expression → PM Expression
  | 0, _ => fun _ => .fuelOut
  | fuel + 1, value => do
    let r ← peekRes 1
    let message ← (match r with
      | .ok t =>
        if is_binary_operator t.symbol then
          pure (binary_symbol_to_string t.symbol)
        else if t.symbol = .operatorSequence then unwrapText t.text
        else panicM "internal error: entered unreachable code"
      | .error e => throwE e)
    consumeM 1
    let right ← parse_expression_binary_operand fuel
    pure (.binaryMessage message value right)

end

end Compiler

namespace SpecLexer

open Compiler

/-- Advance a (line, column) position over consumed characters: the column
counts characters within the line (including the terminator); a newline
starts the next line at column 1 (spec section 3, Location). -/
def adv : Nat × Nat → List Char → Nat × Nat
  | lc, [] => lc
  | (line, col), c :: rest =>
    adv (if c = '\n' then (line + 1, 1) else (line, col + 1)) rest

/-- Operator characters of the spec's dispatch table (section 4.2);
`-` is handled by the minus-run rule. -/
def op_char (c : Char) : Bool :=
  c = '~' || c = '&' || c = '|' || c = '*' || c = '/' || c = '\\' || c = '+' ||
  c = '=' || c = '>' || c = '<' || c = ',' || c = '@' || c = '%'

/-- Identifier characters: ASCII alphanumerics and underscore. -/
def ident_char (c : Char) : Bool := c.isAlphanum || c = '_'

/-- Keyword-sequence continuation characters: letters, digits and `:`. -/
def seq_char (c : Char) : Bool := c.isAlphanum || c = ':'

/-- Modelled from the spec: the Symbol-token lexer of section 4.2 that
`parser.rs` pulls `Item`s from is not under `src/` (only its `Symbol`/`Token`
declarations in `src/compiler/token.rs` and its callers are).  Following the
spec's words: skip whitespace and paired `"…"` comments; dispatch on the
first character — structural single-symbol tokens; minus runs (`≥ 4` one
`Separator`, else that many `Minus` tokens at their respective columns);
`:=`/`Colon`; identifiers to `Identifier`/`Primitive`/`Keyword`/
`KeywordSequence` (sequences greedily take letters, digits and `:`); numbers
to `Double` when `.` is followed by a digit, else `Integer` plus a re-queued
`Period` at the column of the `.`; `'…'` strings with end-of-input closing
silently; operator runs of length `≥ 2` to `OperatorSequence`, single
operator characters to their symbol; an unrecognized character is a fatal
lexer error, which ends the item stream.  Each `Item` carries the location
of the first character of its lexeme. -/
def lex_go : Nat → List Char → Nat → Nat → List Item
  | 0, _, _, _ => []
  | fuel + 1, cs, line, col =>
    match cs with
    | [] => []
    | c :: rest =>
      let loc : Util.Location := ⟨line, col⟩
      if c = '\n' then lex_go fuel rest (line + 1) 1
      else if c.isWhitespace then lex_go fuel rest line (col + 1)
      else if c = '"' then
        let body := rest.takeWhile (fun x => x ≠ '"')
        let after := rest.dropWhile (fun x => x ≠ '"')
        match after with
        | [] => []
        | _ :: r2 =>
          let lc := adv (line, col) (c :: body ++ ['"'])
          lex_go fuel r2 lc.1 lc.2
      else if c = '[' then ⟨⟨.newBlock, Option.none⟩, loc⟩ :: lex_go fuel rest line (col + 1)
      else if c = ']' then ⟨⟨.endBlock, Option.none⟩, loc⟩ :: lex_go fuel rest line (col + 1)
      else if c = '(' then ⟨⟨.newTerm, Option.none⟩, loc⟩ :: lex_go fuel rest line (col + 1)
      else if c = ')' then ⟨⟨.endTerm, Option.none⟩, loc⟩ :: lex_go fuel rest line (col + 1)
      else if c = '#' then ⟨⟨.pound, Option.none⟩, loc⟩ :: lex_go fuel rest line (col + 1)
      else if c = '^' then ⟨⟨.exit, Option.none⟩, loc⟩ :: lex_go fuel rest line (col + 1)
      else if c = '.' then ⟨⟨.period, Option.none⟩, loc⟩ :: lex_go fuel rest line (col + 1)
      else if c = '-' then
        let count := 1 + (rest.takeWhile (fun x => x = '-')).length
        let rest2 := rest.dropWhile (fun x => x = '-')
        if 4 ≤ count then
          ⟨⟨.separator, Option.none⟩, loc⟩ :: lex_go fuel rest2 line (col + count)
        else
          ((List.range count).map
              (fun i => ⟨⟨.minus, Option.none⟩, ⟨line, col + i⟩⟩)) ++
            lex_go fuel rest2 line (col + count)
      else if c = ':' then
        match rest with
        | '=' :: r2 => ⟨⟨.assign, Option.none⟩, loc⟩ :: lex_go fuel r2 line (col + 2)
        | _ => ⟨⟨.colon, Option.none⟩, loc⟩ :: lex_go fuel rest line (col + 1)
      else if c.isAlpha then
        let text := c :: rest.takeWhile ident_char
        let after := rest.dropWhile ident_char
        match after with
        | ':' :: r2 =>
          if (r2.head?.map Char.isAlpha).getD false then
            let seq := r2.takeWhile seq_char
            ⟨⟨.keywordSequence, some ⟨text ++ ':' :: seq⟩⟩, loc⟩ ::
              lex_go fuel (r2.dropWhile seq_char) line
                (col + text.length + 1 + seq.length)
          else
            ⟨⟨.keyword, some ⟨text ++ [':']⟩⟩, loc⟩ ::
              lex_go fuel r2 line (col + text.length + 1)
        | _ =>
          if text = "primitive".data then
            ⟨⟨.primitive, Option.none⟩, loc⟩ :: lex_go fuel after line (col + text.length)
          else
            ⟨⟨.identifier, some ⟨text⟩⟩, loc⟩ :: lex_go fuel after line (col + text.length)
      else if c.isDigit then
        let digits := c :: rest.takeWhile Char.isDigit
        let after := rest.dropWhile Char.isDigit
        match after with
        | '.' :: d :: r2 =>
          if d.isDigit then
            let frac := (d :: r2).takeWhile Char.isDigit
            ⟨⟨.double, some ⟨digits ++ '.' :: frac⟩⟩, loc⟩ ::
              lex_go fuel ((d :: r2).dropWhile Char.isDigit) line
                (col + digits.length + 1 + frac.length)
          else
            ⟨⟨.integer, some ⟨digits⟩⟩, loc⟩ ::
              ⟨⟨.period, Option.none⟩, ⟨line, col + digits.length⟩⟩ ::
                lex_go fuel (d :: r2) line (col + digits.length + 1)
        | ['.'] =>
          ⟨⟨.integer, some ⟨digits⟩⟩, loc⟩ ::
            ⟨⟨.period, Option.none⟩, ⟨line, col + digits.length⟩⟩ ::
              lex_go fuel [] line (col + digits.length + 1)
        | _ =>
          ⟨⟨.integer, some ⟨digits⟩⟩, loc⟩ :: lex_go fuel after line (col + digits.length)
      else if c = '\'' then
        let text := rest.takeWhile (fun x => x ≠ '\'')
        let after := rest.dropWhile (fun x => x ≠ '\'')
        let lc := adv (line, col) (c :: text)
        match after with
        | [] => [⟨⟨.string, some ⟨text⟩⟩, loc⟩]
        | _ :: r2 => ⟨⟨.string, some ⟨text⟩⟩, loc⟩ :: lex_go fuel r2 lc.1 (lc.2 + 1)
      else if op_char c then
        if (rest.head?.map op_char).getD false then
          let seq := c :: rest.takeWhile op_char
          ⟨⟨.operatorSequence, some ⟨seq⟩⟩, loc⟩ ::
            lex_go fuel (rest.dropWhile op_char) line (col + seq.length)
        else
          let sym : Symbol :=
            if c = '~' then .not
            else if c = '&' then .and
            else if c = '|' then .or
            else if c = '*' then .star
            else if c = '/' then .divide
            else if c = '\\' then .modulus
            else if c = '+' then .plus
            else if c = '=' then .equal
            else if c = '>' then .more
            else if c = '<' then .less
            else if c = ',' then .comma
            else if c = '@' then .at
            else .percent
          ⟨⟨sym, Option.none⟩, loc⟩ :: lex_go fuel rest line (col + 1)
      else []

/-- Modelled from the spec: tokenize a whole source string into the parser's
item stream. -/
def lex (s : String) : List Item := lex_go (s.length + 1) s.data 1 1

end SpecLexer

namespace Compiler

/-- Strip the final parser state from a routine's result, keeping the value. -/
def result_of {α : Type} : PRes α → Option α
  | .ok v _ => some v
  | _ => Option.none

/-- Run `parse_class` over the item stream of a source string (fuel 64 is
ample for every input in this development). -/
def run_parse_class (s : String) : PRes Class :=
  parse_class 64 (parser_new (SpecLexer.lex s) "test")

/-- Run `parse_expression` over the item stream of a source string. -/
def run_parse_expression (s : String) : PRes Expression :=
  parse_expression 64 (parser_new (SpecLexer.lex s) "test")

/-- Run `parse_method` over the item stream of a source string. -/
def run_parse_method (s : String) : PRes (String × Method) :=
  parse_method 64 (parser_new (SpecLexer.lex s) "test")

/-- Run `parse_block_body` over the item stream of a source string. -/
def run_parse_block_body (s : String) : PRes (List Expression) :=
  parse_block_body 64 (parser_new (SpecLexer.lex s) "test")

/-- Decidable equality of `Except` results (Rust `PartialEq` on
`Result`). -/
def except_to_sum {ε α : Type} : Except ε α → ε ⊕ α
  | .error e => .inl e
  | .ok a => .inr a

instance {ε α : Type} [DecidableEq ε] [DecidableEq α] :
    DecidableEq (Except ε α) := fun a b =>
  decidable_of_iff (except_to_sum a = except_to_sum b) (by
    cases a <;> cases b <;> simp [except_to_sum])

example :
    expect (parser_new (SpecLexer.lex "Hello") "test") .double =
      (.error (.parseError "Expected [Double], found Identifier" "test" 1 1),
        parser_new (SpecLexer.lex "Hello") "test") := by decide

example :
    (expect (parser_new (SpecLexer.lex " \n  World") "test") .double).1 =
      .error (.parseError "Expected [Double], found Identifier" "test" 2 3) := by
  decide

set_option maxHeartbeats 1600000 in
example :
    result_of (run_parse_method "hello = primitive") =
      some ("hello", .primitive "hello" []) := rfl

set_option maxHeartbeats 1600000 in
example :
    result_of (run_parse_block_body "a := b := 'test'") =
      some [.assignment ["a", "b"] (.literalString "test")] := rfl

set_option maxHeartbeats 3200000 in
example :
    result_of (run_parse_expression "[ :arg | arg print. ' ' print ]") =
      some (.block ["arg"] []
        [.unaryMessage "print" (.var "arg"),
         .unaryMessage "print" (.literalString " ")]) := rfl

set_option maxHeartbeats 800000 in
example : result_of (run_parse_expression "nil") = some .literalNil := rfl

set_option maxHeartbeats 1600000 in
example :
    result_of (run_parse_expression "true || false") =
      some (.binaryMessage "||" (.literalBoolean true)
        (.literalBoolean false)) := rfl

set_option maxHeartbeats 800000 in
example :
    result_of (run_parse_expression "#run:with:") =
      some (.literalSymbol "run:with:") := rfl

set_option maxHeartbeats 800000 in
example :
    result_of (run_parse_expression "-1") =
      some (.literalInteger (-1)) := rfl

set_option maxHeartbeats 800000 in
example :
    result_of (run_parse_expression "-3.14") =
      some (.literalDouble true "3.14") := rfl

set_option maxHeartbeats 1600000 in
example :
    result_of (run_parse_expression "1 test + 2") =
      some (.binaryMessage "+"
        (.unaryMessage "test" (.literalInteger 1)) (.literalInteger 2)) := rfl

set_option maxHeartbeats 1600000 in
example :
    result_of (run_parse_expression "1 + (2 - 1)") =
      some (.binaryMessage "+" (.literalInteger 1)
        (.binaryMessage "-" (.literalInteger 2) (.literalInteger 1))) := rfl

set_option maxHeartbeats 1600000 in
example :
    result_of (run_parse_class "Hello = Test ()") =
      some { name := "Hello", superclass := "Test", instance_methods := [],
             instance_variables := [], class_methods := [],
             class_variables := [] } := rfl

set_option maxHeartbeats 3200000 in
example :
    result_of (run_parse_method "test: a with: b = (\n a println\n)") =
      some ("test:with:",
        .native "test:with:" ["a", "b"] []
          [.unaryMessage "println" (.var "a")]) := rfl

set_option maxHeartbeats 3200000 in
example :
    result_of (run_parse_method "test = (\n ^ 1 + 1.\n)") =
      some ("test",
        .native "test" [] []
          [.ret (.binaryMessage "+" (.literalInteger 1)
            (.literalInteger 1))]) := rfl

end Compiler

namespace Lexer

theorem takeWhile_append_all {p : Char → Bool} {a l : List Char}
    (h : ∀ c ∈ a, p c = true) :
    (a ++ l).takeWhile p = a ++ l.takeWhile p := by
  induction a with
  | nil => simp
  | cons c rest ih =>
    simp only [List.cons_append, List.takeWhile_cons]
    rw [h c (by simp)]
    simp [ih (fun x hx => h x (by simp [hx]))]

theorem dropWhile_append_all {p : Char → Bool} {a l : List Char}
    (h : ∀ c ∈ a, p c = true) :
    (a ++ l).dropWhile p = l.dropWhile p := by
  induction a with
  | nil => simp
  | cons c rest ih =>
    simp only [List.cons_append, List.dropWhile_cons]
    rw [h c (by simp)]
    simp [ih (fun x hx => h x (by simp [hx]))]

theorem takeWhile_all {p : Char → Bool} {l : List Char}
    (h : ∀ c ∈ l, p c = true) : l.takeWhile p = l := by
  have := takeWhile_append_all (l := []) h
  simpa using this

theorem dropWhile_all {p : Char → Bool} {l : List Char}
    (h : ∀ c ∈ l, p c = true) : l.dropWhile p = [] := by
  have := dropWhile_append_all (l := []) h
  simpa using this

theorem digit_ne {c d : Char} (h : c.isDigit = true) (hd : d.isDigit = false) :
    c ≠ d := fun hc => by subst hc; rw [h] at hd; exact Bool.noConfusion hd

theorem not_ws_of_digit {c : Char} (h : c.isDigit = true) :
    is_whitespace_char c = false := by
  have hb : 48 ≤ c.toNat ∧ c.toNat ≤ 57 := by
    simp [Char.isDigit] at h
    exact h
  simp [is_whitespace_char]
  omega

/-- With a pending character that is neither whitespace nor `"`, the
skipping loop is a no-op. -/
theorem read_token_skip_cons {c : Char} {cs : List Char}
    (hws : is_whitespace_char c = false) (hq : c ≠ '"') :
    read_token_skip (c :: cs) = .ok (c :: cs) := by
  rw [read_token_skip, read_token_skip_go]
  simp [List.dropWhile_cons, hws, hq]

theorem read_token_nil : read_token [] = .eofError := by decide

theorem tokenize_nil (f : Nat) : tokenize (f + 1) [] = ([], .eof) := by
  rw [tokenize, read_token_nil]

end Lexer

namespace Lexer

/-- Dispatch: a pending digit enters `tokenize_number`. -/
theorem read_token_digit {c : Char} {cs : List Char} (hc : c.isDigit = true) :
    read_token (c :: cs) = tokenize_number (c :: cs) := by
  have hws := not_ws_of_digit hc
  have hq : c ≠ '"' := digit_ne hc (by decide)
  have h1 : c ≠ '[' := digit_ne hc (by decide)
  have h2 : c ≠ ']' := digit_ne hc (by decide)
  have h3 : c ≠ '(' := digit_ne hc (by decide)
  have h4 : c ≠ ')' := digit_ne hc (by decide)
  have h5 : c ≠ '#' := digit_ne hc (by decide)
  have h6 : c ≠ '^' := digit_ne hc (by decide)
  have h7 : c ≠ '.' := digit_ne hc (by decide)
  have h8 : c ≠ '\'' := digit_ne hc (by decide)
  rw [read_token, read_token_skip_cons hws hq]
  simp [h1, h2, h3, h4, h5, h6, h7, h8, hc]

end Lexer

/-- C2.  The lexer's decimal disambiguation, `tokenize_number` of
`src/compiler/lexer.rs`: for a digit run followed by a bare `.` (the run in
the 64-bit integer range, else the source's `from_str(text).unwrap()`
panics), an `Integer` token is emitted from the digits alone and the `.` is
left in the input, so the next `read_token` call returns `Period` — the
trailing `.` is never folded into a `Double`; for a digit run, `.`, and a
nonempty digit run, a single `Double` token is emitted whose lexeme
contains the `.` and the fractional digits.  Concretely, `"1."` lexes to
`Integer("1") Period` and `"3.14"` to `Double("3.14")`. -/
theorem C2_decimal_disambiguation :
    (∀ a : List Char, a ≠ [] → (∀ c ∈ a, c.isDigit = true) →
      Lexer.int_from_str ⟨a⟩ ≠ Option.none →
      Lexer.read_token (a ++ ['.']) = .tok (.integer ⟨a⟩) ['.'] ∧
      Lexer.read_token ['.'] = .tok .period []) ∧
    (∀ a b : List Char, a ≠ [] → b ≠ [] → (∀ c ∈ a, c.isDigit = true) →
      (∀ c ∈ b, c.isDigit = true) →
      Lexer.read_token (a ++ '.' :: b) = .tok (.double ⟨a ++ '.' :: b⟩) []) ∧
    Lexer.lex_string "1." = ([.integer "1", .period], .eof) ∧
    Lexer.lex_string "3.14" = ([.double "3.14"], .eof) ∧
    Lexer.lex_string "9223372036854775808" = ([], .panicked) := by
  refine ⟨?_, ?_, by decide, by decide, by decide⟩
  · intro a ha hd hint
    refine ⟨?_, by decide⟩
    obtain ⟨c, a', rfl⟩ : ∃ c a', a = c :: a' := by
      cases a with
      | nil => exact absurd rfl ha
      | cons c a' => exact ⟨c, a', rfl⟩
    have hc := hd c (by simp)
    have ht : ((c :: a') ++ ['.']).takeWhile Char.isDigit = c :: a' := by
      rw [Lexer.takeWhile_append_all hd]
      simp
    have hdw : ((c :: a') ++ ['.']).dropWhile Char.isDigit = ['.'] := by
      rw [Lexer.dropWhile_append_all hd]
      simp
    rw [show (c :: a') ++ ['.'] = c :: (a' ++ ['.']) from rfl] at ht hdw ⊢
    rw [Lexer.read_token_digit hc, Lexer.tokenize_number]
    simp only [ht, hdw]
    obtain ⟨v, hv⟩ := Option.ne_none_iff_exists'.mp hint
    rw [hv]
  · intro a b ha hb hda hdb
    obtain ⟨c, a', rfl⟩ : ∃ c a', a = c :: a' := by
      cases a with
      | nil => exact absurd rfl ha
      | cons c a' => exact ⟨c, a', rfl⟩
    obtain ⟨d, b', rfl⟩ : ∃ d b', b = d :: b' := by
      cases b with
      | nil => exact absurd rfl hb
      | cons d b' => exact ⟨d, b', rfl⟩
    have hc := hda c (by simp)
    have hdd := hdb d (by simp)
    have ht : ((c :: a') ++ '.' :: d :: b').takeWhile Char.isDigit = c :: a' := by
      rw [Lexer.takeWhile_append_all hda]
      simp
    have hdw : ((c :: a') ++ '.' :: d :: b').dropWhile Char.isDigit =
        '.' :: d :: b' := by
      rw [Lexer.dropWhile_append_all hda]
      simp
    have ht2 : (d :: b').takeWhile Char.isDigit = d :: b' :=
      Lexer.takeWhile_all hdb
    have hdw2 : (d :: b').dropWhile Char.isDigit = [] :=
      Lexer.dropWhile_all hdb
    rw [show (c :: a') ++ '.' :: d :: b' = c :: (a' ++ '.' :: d :: b') from rfl]
      at ht hdw ⊢
    rw [Lexer.read_token_digit hc, Lexer.tokenize_number]
    simp only [ht, hdw, ht2, hdw2, hdd, if_true]
    simp

/-- Witness for C2 at the spec's own examples, `"1."` and `"3.14"`. -/
theorem C2_witness :
    Lexer.read_token ("1".data ++ ['.']) = .tok (.integer ⟨"1".data⟩) ['.'] ∧
    Lexer.read_token ("3".data ++ '.' :: "14".data) =
      .tok (.double ⟨"3".data ++ '.' :: "14".data⟩) [] :=
  ⟨(C2_decimal_disambiguation.1 "1".data (by decide) (by decide)
      (by decide)).1,
   C2_decimal_disambiguation.2.1 "3".data "14".data (by decide) (by decide)
     (by decide) (by decide)⟩

namespace Lexer

theorem drop_minus_run_replicate (n : Nat) :
    drop_minus_run (List.replicate n '-') = [] := by
  induction n with
  | zero => rfl
  | succ m ih =>
    rw [List.replicate_succ]
    simpa [drop_minus_run] using ih

/-- A run of three or more dashes lexes to a single `Separator` consuming
the whole run. -/
theorem read_token_dashes (m : Nat) :
    read_token (List.replicate (m + 3) '-') = .tok .separator [] := by
  rw [List.replicate_succ, List.replicate_succ, List.replicate_succ]
  rw [read_token, read_token_skip_cons (by decide) (by decide)]
  simp [tokenize_minus, drop_minus_run, drop_minus_run_replicate m]

theorem comment_body_none {s : List Char} (h : '"' ∉ s) :
    comment_body s = Option.none := by
  induction s with
  | nil => rfl
  | cons c rest ih =>
    simp only [List.mem_cons, not_or] at h
    simp [comment_body, Ne.symm h.1, ih h.2]

theorem string_body_none (acc : List Char) {s : List Char} (h : '\'' ∉ s) :
    string_body acc s = .eofError := by
  induction s generalizing acc with
  | nil => rfl
  | cons c rest ih =>
    simp only [List.mem_cons, not_or] at h
    simp [string_body, Ne.symm h.1, ih _ h.2]

end Lexer

/-- C3 counterexample: on the input of exactly three `-` characters the
lexer emits a single `Separator`, not three `Minus` tokens —
`tokenize_minus` enters the separator branch whenever the two characters
after the first `-` are both `-`. -/
theorem C3_counterexample :
    Lexer.lex_string "---" = ([.separator], .eof) ∧
    (([.separator], Lexer.Ending.eof) : List Lexer.Token × Lexer.Ending) ≠
      ([.minus, .minus, .minus], .eof) :=
  ⟨by decide, by decide⟩

/-- C3, amended.  For an input consisting of exactly `n` consecutive `-`
characters the lexer produces: for `n = 1` one `Minus`; for `n = 2` two
`Minus` tokens; for `n ≥ 3` (not `n ≥ 4`) a single `Separator`. -/
theorem C3_minus_runs :
    Lexer.lex_string "-" = ([.minus], .eof) ∧
    Lexer.lex_string "--" = ([.minus, .minus], .eof) ∧
    ∀ n, 3 ≤ n →
      Lexer.lex_string ⟨List.replicate n '-'⟩ = ([.separator], .eof) := by
  refine ⟨by decide, by decide, ?_⟩
  intro n hn
  obtain ⟨m, rfl⟩ : ∃ m, n = m + 3 := ⟨n - 3, by omega⟩
  rw [Lexer.lex_string]
  have hlen : (⟨List.replicate (m + 3) '-'⟩ : String).length = m + 3 := by
    simp [String.length]
  rw [hlen, show (⟨List.replicate (m + 3) '-'⟩ : String).data =
    List.replicate (m + 3) '-' from rfl]
  rw [Lexer.tokenize, Lexer.read_token_dashes m]
  have h3 : Lexer.tokenize (m + 3) [] = ([], .eof) := Lexer.tokenize_nil (m + 2)
  simp [h3]

/-- Witness for the amended C3 at a run of five dashes. -/
theorem C3_witness :
    Lexer.lex_string ⟨List.replicate 5 '-'⟩ = ([.separator], .eof) :=
  C3_minus_runs.2.2 5 (by omega)

/-- C5 counterexample: on an unrecognized leading character (here `þ`,
U+00FE) `read_token` does return an ordinary token — `Token::None('þ')` —
and no error arises (the repository also contains no promotion to a
`ParseError "Unexpected character …"`; the string `"Unexpected"` occurs
nowhere under `src/`).  This matches the lexer's own `tokenizes_none`
test. -/
theorem C5_counterexample :
    Lexer.read_token ['þ'] = .tok (.none 'þ') [] ∧
    Lexer.lex_string "þ" = ([.none 'þ'], .eof) ∧
    (Lexer.LexOut.tok (.none 'þ') [] ≠ .eofError) :=
  ⟨by decide, by decide, by decide⟩

/-- C5, amended.  When the first character of a pending lexeme is
recognized by no lexer production, `read_token` consumes it and returns the
ordinary token `Token::None(c)` carrying the character; the lexer does not
fail and nothing is promoted to a `ParseError`. -/
theorem C5_none_token (c : Char)
    (hws : Lexer.is_whitespace_char c = false) (hq : c ≠ '"')
    (h1 : c ≠ '[') (h2 : c ≠ ']') (h3 : c ≠ '(') (h4 : c ≠ ')')
    (h5 : c ≠ '#') (h6 : c ≠ '^') (h7 : c ≠ '.') (h8 : c ≠ '\'')
    (hd : c.isDigit = false) (h9 : c ≠ ':') (h10 : c ≠ '-')
    (ha : c.isAlpha = false) (hop : Lexer.is_operator c = false) :
    Lexer.read_token [c] = .tok (.none c) [] := by
  rw [Lexer.read_token, Lexer.read_token_skip_cons hws hq]
  simp [h1, h2, h3, h4, h5, h6, h7, h8, hd, h9, h10, ha, hop,
    Lexer.tokenize_token]

/-- Witness for the amended C5 at `þ`. -/
theorem C5_witness : Lexer.read_token ['þ'] = .tok (.none 'þ') [] :=
  C5_none_token 'þ' (by decide) (by decide) (by decide) (by decide) (by decide)
    (by decide) (by decide) (by decide) (by decide) (by decide) (by decide)
    (by decide) (by decide) (by decide) (by decide)

/-- C6 counterexample: a string literal that reaches end-of-input before a
closing `'` is not closed silently — `tokenize_string`'s loop propagates the
end-of-input error of `read_char` through `try!`, so `read_token` returns
the error and the partial text `"ab"` is discarded, not returned as a
`String` token. -/
theorem C6_counterexample :
    Lexer.read_token "'ab".data = .eofError ∧
    (Lexer.LexOut.eofError ≠ .tok (.string "ab") []) :=
  ⟨by decide, by decide⟩

/-- C6, amended.  When a string literal opened with `'` reaches
end-of-input before a closing `'`, `read_token` returns the end-of-input
error (the characters read so far are discarded); no `String` token is
produced. -/
theorem C6_unterminated_string (s : List Char) (h : '\'' ∉ s) :
    Lexer.read_token ('\'' :: s) = .eofError := by
  rw [Lexer.read_token, Lexer.read_token_skip_cons (by decide) (by decide)]
  simp [Lexer.tokenize_string, Lexer.string_body_none [] h]

/-- Witness for the amended C6 at `'ab`. -/
theorem C6_witness : Lexer.read_token ('\'' :: "ab".data) = .eofError :=
  C6_unterminated_string "ab".data (by decide)

/-- C7 counterexample: the keyword-sequence loop of `tokenize_identifier`
consumes only letters and `:` — not digits — so `"foo:bar2:"` lexes as
`KeywordSequence("foo:bar")` followed by `Integer("2")` and `Colon`, not as
one `KeywordSequence("foo:bar2:")`. -/
theorem C7_counterexample :
    Lexer.lex_string "foo:bar2:" =
      ([.keywordSequence "foo:bar", .integer "2", .colon], .eof) ∧
    (([.keywordSequence "foo:bar", .integer "2", .colon], Lexer.Ending.eof) ≠
      (([.keywordSequence "foo:bar2:"] : List Lexer.Token), .eof)) :=
  ⟨by decide, by decide⟩

/-- C7, amended.  After an identifier and a consumed `:`, when the next
character is a letter the lexer continues consuming letters and additional
`:` characters greedily — digits stop the run — and emits a single
`KeywordSequence`; when the character after the `:` is an ASCII character
that is not a letter, it emits a `Keyword`.  (The `saw_sequence` check is
Rust `char::is_alphabetic`, a Unicode predicate; the Keyword leg is
therefore stated over the ASCII range, where `is_alphabetic_char` is exact
— on a non-ASCII Unicode letter the Rust code takes the sequence branch
instead.  The `KeywordSequence` leg needs no restriction: an ASCII letter
satisfies the Rust predicate on every character.) -/
theorem C7_keyword_dispatch :
    (∀ c : Char, c.toNat ≤ 127 → Lexer.is_alphabetic_char c = false →
      Lexer.read_token ("foo:".data ++ [c]) = .tok (.keyword "foo:") [c]) ∧
    (∀ seq : List Char, (∀ c ∈ seq, Lexer.is_sequence_char c = true) →
      (seq.head?.map Lexer.is_alphabetic_char).getD false = true →
      Lexer.read_token ("foo:".data ++ seq) =
        .tok (.keywordSequence ⟨"foo:".data ++ seq⟩) []) ∧
    Lexer.lex_string "foo:bar:" = ([.keywordSequence "foo:bar:"], .eof) ∧
    Lexer.lex_string "foo:bar2:" =
      ([.keywordSequence "foo:bar", .integer "2", .colon], .eof) := by
  refine ⟨?_, ?_, by decide, by decide⟩
  · intro c hascii h
    rw [show "foo:".data ++ [c] = 'f' :: ('o' :: 'o' :: ':' :: [c]) from rfl]
    rw [Lexer.read_token, Lexer.read_token_skip_cons (by decide) (by decide)]
    simp [Lexer.tokenize_identifier, Lexer.is_identifier_char, h]
  · intro seq hall hhead
    rw [show "foo:".data ++ seq = 'f' :: ('o' :: 'o' :: ':' :: seq) from rfl]
    rw [Lexer.read_token, Lexer.read_token_skip_cons (by decide) (by decide)]
    simp [Lexer.tokenize_identifier, Lexer.is_identifier_char, hhead,
      Lexer.takeWhile_all hall, Lexer.dropWhile_all hall]

/-- Witness for the amended C7: after `foo:` a digit is not a letter, so a
`Keyword` is emitted and the digit is left in the input. -/
theorem C7_witness :
    Lexer.read_token ("foo:".data ++ ['1']) = .tok (.keyword "foo:") ['1'] :=
  C7_keyword_dispatch.1 '1' (by decide) (by decide)

/-- C10: `read_token` does not terminate on every finite input.  On an
input that ends inside a comment opened with `"`, the loop of
`skip_comment` — `if self.buffer.read_char() == Ok('"') { break }` — can
never break once `read_char` yields the end-of-input error, and the buffer
state no longer changes, so the Rust code loops forever; the model returns
the divergence marker `hang`. -/
theorem C10_comment_divergence :
    Lexer.read_token ('"' :: "abc".data) = .hang ∧
    Lexer.lex_string "\"abc" = ([], .hang) :=
  ⟨by decide, by decide⟩

/-- C9 counterexample: `location()` does not always report the position of
the character `peek()` would return.  After consuming the two characters of
`"a\nb"`'s first line with `next` (no peek pending), the cursor sits past
the end of the consumed line: `location()` returns `(1, 3)`, while `peek()`
returns `'b'`, whose recorded position (returned by `location()` right
after that peek) is `(2, 1)`. -/
theorem C9_counterexample :
    Util.location ((Util.next (Util.next (Util.buffer_of_string "a\nb")).2).2) =
      ⟨1, 3⟩ ∧
    (Util.peek ((Util.next (Util.next (Util.buffer_of_string "a\nb")).2).2)).1 =
      some 'b' ∧
    Util.location
      ((Util.peek ((Util.next (Util.next (Util.buffer_of_string "a\nb")).2).2)).2) =
      ⟨2, 1⟩ ∧
    ((⟨1, 3⟩ : Util.Location) ≠ ⟨2, 1⟩) :=
  ⟨by decide, by decide, by decide, by decide⟩

/-- C9, amended.  When a `peek()` returns a character, `location()` on the
resulting state reports the position at which the line cursor stood after
`fill_buffer`, i.e. `(line, position + 1)` of the filled buffer — the peek
slot decouples that location from the post-advance cursor.  When nothing is
peeked, `location()` is `(line, position + 1)` of the raw cursor, which at a
consumed line boundary lies past the end of the current line rather than at
the next line's first character.  In particular, after consuming the four
characters of `" \n  "` and peeking at `'W'`, `location()` returns
`(2, 3)`. -/
theorem C9_location_after_peek :
    (∀ (b : Util.PeekableBuffer) (c : Char), (Util.peek b).1 = some c →
      Util.location (Util.peek b).2 = Util.location (Util.fill_buffer b)) ∧
    (Util.peek (Util.consume (Util.consume (Util.consume (Util.consume
        (Util.buffer_of_string " \n  World")))))).1 = some 'W' ∧
    Util.location (Util.peek (Util.consume (Util.consume (Util.consume
        (Util.consume (Util.buffer_of_string " \n  World")))))).2 = ⟨2, 3⟩ := by
  refine ⟨?_, by decide, by decide⟩
  intro b c h
  cases hp : (Util.fill_buffer b).peeked with
  | none =>
    simp only [Util.peek, hp] at h ⊢
    rw [h]
    simp [Util.location, hp]
  | some pair =>
    simp only [Util.peek, hp] at h ⊢

/-- Witness for the amended C9 at the one-character source `"x"`. -/
theorem C9_witness :
    (Util.peek (Util.buffer_of_string "x")).1 = some 'x' ∧
    Util.location (Util.peek (Util.buffer_of_string "x")).2 =
      Util.location (Util.fill_buffer (Util.buffer_of_string "x")) :=
  ⟨by decide, C9_location_after_peek.1 _ 'x' (by decide)⟩

namespace Compiler

/-- An `Item` with a fixed dummy location, for parser theorems over token
streams in which no location is observable. -/
def itm (s : Symbol) (t : Option String) : Item := ⟨⟨s, t⟩, ⟨1, 1⟩⟩

/-- Evaluating the `PM` bind (the `try!` chaining). -/
theorem PM_bind_eval {α β : Type} (m : PM α) (f : α → PM β) (p : Parser) :
    (m >>= f) p =
      match m p with
      | .ok a p2 => f a p2
      | .err e p2 => .err e p2
      | .panicked msg => .panicked msg
      | .fuelOut => .fuelOut := rfl

/-- Evaluating the `PM` pure. -/
theorem PM_pure_eval {α : Type} (a : α) (p : Parser) :
    (pure a : PM α) p = .ok a p := rfl

end Compiler

namespace Compiler

set_option maxHeartbeats 6400000 in
/-- C1.  Smalltalk message precedence in `parse_expression` of
`src/compiler/parser.rs`: the test input
`"1 with: a length and: 1 + 2"` parses to
`KeywordMessage{receiver: LiteralInteger 1, message: "with:and:",
parameters: [UnaryMessage("length", Variable "a"),
BinaryMessage("+", LiteralInteger 1, LiteralInteger 2)]}` (the token stream
is produced by the spec-modelled lexer `SpecLexer.lex`); and in general —
over token streams with arbitrary selectors — unary messages bind tighter
than binary messages (any unary selector `m`), binary messages are
left-associative with no precedence among any two of the fourteen
binary-operator symbols, and keyword messages bind loosest,
their arguments absorbing a following binary message. -/
theorem C1_message_precedence :
    result_of (run_parse_expression "1 with: a length and: 1 + 2") =
      some (.keywordMessage "with:and:" (.literalInteger 1)
        [.unaryMessage "length" (.var "a"),
         .binaryMessage "+" (.literalInteger 1) (.literalInteger 2)]) ∧
    (∀ m : String,
      result_of (parse_expression 16 (parser_new
        [itm .integer (some "1"), itm .identifier (some m),
         itm .plus Option.none, itm .integer (some "2")] "test")) =
      some (.binaryMessage "+" (.unaryMessage m (.literalInteger 1))
        (.literalInteger 2))) ∧
    (∀ i j : Fin 14,
      result_of (parse_expression 16 (parser_new
        [itm .integer (some "1"), itm (BINARY_OPERATORS.get i) Option.none,
         itm .integer (some "2"), itm (BINARY_OPERATORS.get j) Option.none,
         itm .integer (some "3")] "test")) =
      some (.binaryMessage (binary_symbol_to_string (BINARY_OPERATORS.get j))
        (.binaryMessage (binary_symbol_to_string (BINARY_OPERATORS.get i))
          (.literalInteger 1) (.literalInteger 2))
        (.literalInteger 3))) ∧
    result_of (run_parse_expression "1 value: 2 + 3") =
      some (.keywordMessage "value:" (.literalInteger 1)
        [.binaryMessage "+" (.literalInteger 2) (.literalInteger 3)]) := by
  refine ⟨by rfl, ?_, ?_, ?_⟩
  · intro m
    simp [parse_expression, parse_expression_loop, parse_expression_primary,
      parse_expression_messages, parse_unary_messages_loop,
      parse_expression_binary_message, parse_expression_binary_operand,
      parse_expression_number, parse_expression_unary_message,
      peekRes, peekTry, acceptRes, acceptOneOfRes, expectTry, consumeM,
      require, attempt, liftOp, unwrapText, panicM, instMonadPM,
      peekN, pull_items, accept, accept_one_of, expect, expect_one_of,
      consumeN, is_ok_token, parse_i64, digits_value, parser_new, itm,
      result_of, is_binary_operator, BINARY_OPERATORS,
      binary_symbol_to_string]
  · intro i j
    fin_cases i <;> fin_cases j <;> rfl
  · rfl

set_option maxHeartbeats 3200000 in
/-- C4.  `parse_superclass_name` of `src/compiler/parser.rs` is the single
recovered mismatch: whenever the front token (queue first, else the lexer)
is not an `Identifier`, it returns `"Object"` with the parser state
unchanged — the mismatching token stays available to later productions —
and `parse_class` on `"Hello = ()"` yields
`Class{name: "Hello", superclass: "Object"}` with empty variables and
method maps (token stream from the spec-modelled lexer). -/
theorem C4_superclass_default :
    (∀ (p : Parser) (it : Item) (rest : List Item),
      p.queue = it :: rest → it.token.symbol ≠ .identifier →
      parse_superclass_name p = .ok "Object" p) ∧
    (∀ (p : Parser) (it : Item) (rest : List Item),
      p.queue = [] → p.lexer = it :: rest → it.token.symbol ≠ .identifier →
      parse_superclass_name p = .ok "Object" p) ∧
    run_parse_class "Hello = ()" =
      .ok { name := "Hello", superclass := "Object", instance_methods := [],
            instance_variables := [], class_methods := [],
            class_variables := [] } ⟨[], [], "test"⟩ := by
  refine ⟨?_, ?_, by rfl⟩
  · intro p it rest hq hsym
    simp [parse_superclass_name, acceptRes, attempt, liftOp, accept,
      accept_one_of, hq, hsym, instMonadPM, List.contains_cons]
  · intro p it rest hq hl hsym
    simp [parse_superclass_name, acceptRes, attempt, liftOp, accept,
      accept_one_of, hq, hl, hsym, instMonadPM, List.contains_cons]

/-- Witness for C4's general parts: a `NewTerm` at the front of the queue,
and at the front of the lexer, both default to `"Object"` without
consumption. -/
theorem C4_witness :
    parse_superclass_name ⟨[], [itm .newTerm Option.none], "t"⟩ =
      .ok "Object" ⟨[], [itm .newTerm Option.none], "t"⟩ ∧
    parse_superclass_name ⟨[itm .newTerm Option.none], [], "t"⟩ =
      .ok "Object" ⟨[itm .newTerm Option.none], [], "t"⟩ :=
  ⟨C4_superclass_default.1 _ (itm .newTerm Option.none) [] rfl (by decide),
   C4_superclass_default.2.1 _ (itm .newTerm Option.none) [] rfl rfl
     (by decide)⟩

set_option maxHeartbeats 1600000 in
/-- C8.  `parse_expression_number` of `src/compiler/parser.rs` does not
propagate a `ParseError` on an unparseable numeric lexeme: it calls
`text.parse().unwrap()`, which panics when the `Integer` lexeme exceeds the
`i64` range.  At the failing input `9223372036854775808` (2^63) the parse
run panics (modelled by `PRes.panicked`), while `9223372036854775807`
(`i64::MAX`) still parses. -/
theorem C8_numeric_overflow_panics :
    run_parse_expression "9223372036854775808" =
      .panicked "called Result::unwrap() on an Err value" ∧
    parse_i64 "9223372036854775808" = Option.none ∧
    parse_i64 "9223372036854775807" = some 9223372036854775807 ∧
    result_of (run_parse_expression "9223372036854775807") =
      some (.literalInteger 9223372036854775807) := by
  exact ⟨by rfl, by decide, by decide, by rfl⟩

end Compiler
